import Mathlib

set_option maxHeartbeats 1000000

namespace Firestorm

/-- A fetched product record, as built by `get_all_products`
(src/firestorm_monitor.py lines 65–72): the scraper always sets
`title`, `sku`, `url`, `stock_qty`, `price` and `image`, normalising a
missing or unparseable stock quantity to 0 (lines 47–53) and a missing
SKU to the empty string (lines 42–45).  The optional `old_stock` entry
models the dictionary key of the same name that the classification loop
may add to a record (lines 198 and 201); fetched records start without
it. -/
structure Product where
  title : String
  sku : String
  url : String
  stock_qty : Nat
  price : String
  image : String
  old_stock : Option Nat := none
deriving DecidableEq, Repr

/-- A snapshot entry as stored in `firestorm_products.json`.  It carries
the same fields as a product dictionary, but `stock_qty` is optional:
`main` reads it defensively with `old_product.get('stock_qty', 0)`
(line 194), so a stored record may lack the field. -/
structure KnownRec where
  title : String
  sku : String
  url : String
  stock_qty : Option Nat
  price : String
  image : String
  old_stock : Option Nat := none
deriving DecidableEq, Repr

/-- The snapshot entry a product dictionary is stored as by
`save_known_products` (line 153): all fields present. -/
def Product.toKnown (p : Product) : KnownRec :=
  { title := p.title, sku := p.sku, url := p.url, stock_qty := some p.stock_qty,
    price := p.price, image := p.image, old_stock := p.old_stock }

/-- The persisted snapshot: the item list of the JSON dictionary mapping
SKUs to stored records (`firestorm_products.json`). -/
abbrev Snapshot := List (String × KnownRec)

/-- Dictionary lookup, modelling `known_products[sku]` and the membership
test `sku in known_products` (lines 189 and 193). -/
def Snapshot.find : Snapshot → String → Option KnownRec
  | [], _ => none
  | kv :: rest, k => if kv.1 = k then some kv.2 else Snapshot.find rest k

/-- Dictionary item assignment: replace the entry if the key is present,
otherwise append a new entry. -/
def Snapshot.insert : Snapshot → String → KnownRec → Snapshot
  | [], k, v => [(k, v)]
  | kv :: rest, k, v => if kv.1 = k then (k, v) :: rest else kv :: Snapshot.insert rest k v

/-- `save_known_products` (lines 150–158): builds the dictionary
`{p['sku']: p for p in products if p['sku']}` — records with an empty SKU
are dropped, and a later record with the same SKU overwrites an earlier
one — and writes it out as the new snapshot. -/
def save_known_products (products : List Product) : Snapshot :=
  products.foldl (fun s p => if p.sku = "" then s else Snapshot.insert s p.sku p.toKnown) []

/-- Value-equality of two snapshots as key-value mappings: every key of
either snapshot looks up to the same stored record in both.  This is the
decidable form; `Snapshot.equivb_iff` relates it to pointwise equality of
`Snapshot.find` over all keys. -/
def Snapshot.equivb (s t : Snapshot) : Bool :=
  (s.all fun kv => decide (Snapshot.find t kv.1 = Snapshot.find s kv.1)) &&
    (t.all fun kv => decide (Snapshot.find s kv.1 = Snapshot.find t kv.1))

/-- The three change-event categories of the monitor: the `restocked`,
`increased_stock` and `new_products` lists of `main` (lines 180–182). -/
inductive Category where
  | Restocked
  | Increased
  | Added
deriving DecidableEq, Repr

/-- One iteration of the classification loop in `main`
(lines 184–202), for one current record:

* an empty SKU is skipped (lines 186–187);
* a SKU absent from the prior snapshot yields `Added` iff the fetched
  `stock_qty` is positive (lines 189–191);
* a SKU present in the prior snapshot, with `old_stock` read as
  `old_product.get('stock_qty', 0)` (line 194), yields `Restocked` when
  `old_stock == 0 and new_stock > 0` and `Increased` when
  `new_stock > old_stock and old_stock > 0`, in both cases storing
  `old_stock` on the record itself (lines 197–202); otherwise nothing.

The returned record is the one the loop appends to the event list: the
input record, annotated with `old_stock` in the `Restocked` and
`Increased` cases. -/
def classifyRecord (known : Snapshot) (product : Product) : Option (Category × Product) :=
  if product.sku = "" then none
  else
    match Snapshot.find known product.sku with
    | none =>
        if product.stock_qty > 0 then some (Category.Added, product) else none
    | some old_product =>
        if old_product.stock_qty.getD 0 = 0 ∧ product.stock_qty > 0 then
          some (Category.Restocked, { product with old_stock := some (old_product.stock_qty.getD 0) })
        else if product.stock_qty > old_product.stock_qty.getD 0 ∧ old_product.stock_qty.getD 0 > 0 then
          some (Category.Increased, { product with old_stock := some (old_product.stock_qty.getD 0) })
        else none

/-- The state of a current record after the classification loop has run:
because line 198/201 mutates the record in place, a record that produced
a `Restocked` or `Increased` event carries the `old_stock` annotation
from then on, and every other record is unchanged. -/
def processRecord (known : Snapshot) (p : Product) : Product :=
  match classifyRecord known p with
  | some (_, q) => q
  | none => p

/-- The `Restocked` event (if any) produced for one record. -/
def restockedOf (known : Snapshot) (p : Product) : Option Product :=
  match classifyRecord known p with
  | some (Category.Restocked, q) => some q
  | _ => none

/-- The `Increased` event (if any) produced for one record. -/
def increasedOf (known : Snapshot) (p : Product) : Option Product :=
  match classifyRecord known p with
  | some (Category.Increased, q) => some q
  | _ => none

/-- The `Added` event (if any) produced for one record. -/
def addedOf (known : Snapshot) (p : Product) : Option Product :=
  match classifyRecord known p with
  | some (Category.Added, q) => some q
  | _ => none

/-- The result of the classification loop of `main` (lines 180–202):
the three event lists, in iteration order, plus the current record list
as it stands after the loop (with `old_stock` annotations applied by the
in-place mutations of lines 198 and 201). -/
structure ClassifyResult where
  restocked : List Product
  increased : List Product
  new_products : List Product
  current : List Product
deriving DecidableEq, Repr

/-- The classification loop of `main` (lines 184–202), folded over the
current record list in order. -/
def classify (known : Snapshot) : List Product → ClassifyResult
  | [] => ⟨[], [], [], []⟩
  | p :: rest =>
      let res := classify known rest
      match classifyRecord known p with
      | some (Category.Restocked, q) =>
          ⟨q :: res.restocked, res.increased, res.new_products, q :: res.current⟩
      | some (Category.Increased, q) =>
          ⟨res.restocked, q :: res.increased, res.new_products, q :: res.current⟩
      | some (Category.Added, q) =>
          ⟨res.restocked, res.increased, q :: res.new_products, q :: res.current⟩
      | none =>
          ⟨res.restocked, res.increased, res.new_products, p :: res.current⟩

/-- One per-product embed of a Discord message, as built by
`send_discord_notification` (lines 99–127): title, link, colour, the
stock and price fields, the optional `Stock Change` field added when the
record carries `old_stock` (lines 120–125), and the optional thumbnail
added when the record has a non-empty image (lines 117–118). -/
structure DetailEmbed where
  title : String
  url : String
  color : Nat
  stockChange : Option (Nat × Nat)
  stock : Nat
  price : String
  thumbnail : Option String
deriving DecidableEq, Repr

/-- Builds one per-product embed (lines 99–127). -/
def detailEmbed (color : Nat) (p : Product) : DetailEmbed :=
  { title := p.title, url := p.url, color := color,
    stockChange := p.old_stock.map (fun os => (os, p.stock_qty)),
    stock := p.stock_qty, price := p.price,
    thumbnail := if p.image = "" then none else some p.image }

/-- One webhook message, as assembled by `send_discord_notification`
(lines 83–129): a summary embed (title, description, colour — the
timestamp and footer carry no specified content) followed by the
per-product detail embeds. -/
structure Message where
  title : String
  description : String
  color : Nat
  details : List DetailEmbed
deriving DecidableEq, Repr

/-- The payload construction of `send_discord_notification`
(lines 83–129): one summary embed plus a detail embed for each of the
first 10 products only (`products[:10]`, line 98).  The single webhook
POST and its error handling are modelled in `main_cycle`. -/
def send_discord_notification (title description : String) (color : Nat)
    (products : List Product) : Message :=
  { title := title, description := description, color := color,
    details := (products.take 10).map (detailEmbed color) }

/-- The observable outcome of one monitor cycle: the three event lists,
the messages handed to the transport, the per-message delivery attempts
with their outcomes, the snapshot on disk after the cycle, and whether
`save_known_products` was called. -/
structure CycleResult where
  restocked : List Product
  increased : List Product
  new_products : List Product
  messages : List Message
  deliveries : List (Message × Bool)
  snapshot : Snapshot
  saved : Bool
deriving DecidableEq, Repr

/-- One run of `main` (lines 160–240), with the collaborators injected:
`deliver` is the webhook transport (its result records success or
failure of the POST; a failure is caught at lines 135–136 and never
interrupts the flow), `known` is the snapshot `load_known_products`
returned, and `current` is the record list `get_all_products` returned.

* an empty fetch aborts the cycle before classification and before any
  write (lines 167–169);
* an empty prior snapshot makes this a first run: the fetch is saved and
  the cycle ends with no events and no messages (lines 175–178);
* otherwise the classification loop runs (lines 184–202), one message is
  built and handed to the transport per non-empty category — `Restocked`
  then `Increased` then `Added` (lines 204–235) — and the (annotated)
  current record list is saved unconditionally (line 240). -/
def main_cycle (deliver : Message → Bool) (known : Snapshot) (current : List Product) :
    CycleResult :=
  if current.isEmpty then
    { restocked := [], increased := [], new_products := [], messages := [],
      deliveries := [], snapshot := known, saved := false }
  else if known.isEmpty then
    { restocked := [], increased := [], new_products := [], messages := [],
      deliveries := [], snapshot := save_known_products current, saved := true }
  else
    let res := classify known current
    let msgs :=
      (if res.restocked.isEmpty then [] else
        [send_discord_notification "🔔 RESTOCK ALERT!"
          (toString res.restocked.length ++ " product(s) back in stock!") 3066993 res.restocked]) ++
      (if res.increased.isEmpty then [] else
        [send_discord_notification "📈 Stock Increased"
          (toString res.increased.length ++ " product(s) got more stock!") 3447003 res.increased]) ++
      (if res.new_products.isEmpty then [] else
        [send_discord_notification "🆕 New Products Added!"
          (toString res.new_products.length ++ " new product(s) available!") 15844367 res.new_products])
    { restocked := res.restocked, increased := res.increased, new_products := res.new_products,
      messages := msgs, deliveries := msgs.map (fun m => (m, deliver m)),
      snapshot := save_known_products res.current, saved := true }

/-- The last record in `l` whose SKU is `k` — the occurrence that ends up
as the snapshot entry for `k` when the list is saved. -/
def lastWithKey : List Product → String → Option Product
  | [], _ => none
  | p :: rest, k => (lastWithKey rest k).or (if p.sku = k then some p else none)

/-- A concrete product record for tests: title and url derived from the
SKU, no image, no price, no `old_stock` annotation. -/
def mkP (sku : String) (q : Nat) : Product :=
  { title := "T" ++ sku, sku := sku, url := "u" ++ sku, stock_qty := q,
    price := "", image := "", old_stock := none }

/-- A prior snapshot holding one unrelated in-stock product. -/
def knownZ : Snapshot := [("Z", (mkP "Z" 1).toKnown)]

/-- A prior snapshot holding one out-of-stock product with SKU `A`. -/
def knownA0 : Snapshot := [("A", (mkP "A" 0).toKnown)]

/-- A stored record with no `stock_qty` field, as a degenerate snapshot
entry that `main` must read with the default 0. -/
def recNoQty : KnownRec :=
  { title := "TA", sku := "A", url := "uA", stock_qty := none,
    price := "", image := "", old_stock := none }

/-- A prior snapshot whose only entry lacks the `stock_qty` field. -/
def knownNoQty : Snapshot := [("A", recNoQty)]

/-- Eleven fetched products, all new relative to `knownZ`, all in stock. -/
def elevenNew : List Product :=
  [mkP "S1" 1, mkP "S2" 1, mkP "S3" 1, mkP "S4" 1, mkP "S5" 1, mkP "S6" 1,
    mkP "S7" 1, mkP "S8" 1, mkP "S9" 1, mkP "S10" 1, mkP "S11" 1]

/-- Lookup after a dictionary item assignment. -/
theorem Snapshot.find_insert (s : Snapshot) (k : String) (v : KnownRec) (j : String) :
    Snapshot.find (Snapshot.insert s k v) j = if k = j then some v else Snapshot.find s j := by
  induction s with
  | nil => simp [Snapshot.insert, Snapshot.find]
  | cons kv rest ih =>
      by_cases h1 : kv.1 = k
      · by_cases h2 : k = j <;> simp [Snapshot.insert, Snapshot.find, h1, h2]
      · by_cases h2 : kv.1 = j
        · have h3 : ¬ k = j := fun h => h1 (h2.trans h.symm)
          have h4 : ¬ j = k := fun h => h3 h.symm
          simp [Snapshot.insert, Snapshot.find, h1, h2, h3, h4]
        · simp [Snapshot.insert, Snapshot.find, h1, h2, ih]

/-- Lookup in the dictionary built by the `save_known_products` fold:
the last record in the list carrying the key wins, and otherwise the
accumulator's entry is returned. -/
theorem find_foldl_save (l : List Product) (acc : Snapshot) (k : String) (hk : k ≠ "") :
    Snapshot.find
        (l.foldl (fun s p => if p.sku = "" then s else Snapshot.insert s p.sku p.toKnown) acc) k
      = ((lastWithKey l k).map Product.toKnown).or (Snapshot.find acc k) := by
  induction l generalizing acc with
  | nil => simp [lastWithKey]
  | cons p rest ih =>
      rw [List.foldl_cons, ih]
      cases hlast : lastWithKey rest k with
      | some q => simp [lastWithKey, hlast, Option.or]
      | none =>
          by_cases hsku : p.sku = ""
          · have hne : ¬ p.sku = k := fun h => hk (h.symm.trans hsku)
            have hne2 : ¬ ("" : String) = k := fun h => hk h.symm
            simp [lastWithKey, hlast, hsku, hne, hne2, Option.or]
          · by_cases hpk : p.sku = k
            · have hk2 : ¬ k = "" := hk
              simp [lastWithKey, hlast, hsku, hpk, hk2, Snapshot.find_insert, Option.or]
            · simp [lastWithKey, hlast, hsku, hpk, Snapshot.find_insert, Option.or]

/-- Lookup in a saved snapshot: the last record with the key, stored. -/
theorem save_find (l : List Product) (k : String) (hk : k ≠ "") :
    Snapshot.find (save_known_products l) k = (lastWithKey l k).map Product.toKnown := by
  rw [save_known_products, find_foldl_save l [] k hk]
  cases lastWithKey l k <;> simp [Snapshot.find, Option.or]

/-- A saved snapshot has no entry for the empty key. -/
theorem save_find_empty (l : List Product) :
    Snapshot.find (save_known_products l) "" = none := by
  rw [save_known_products]
  suffices h : ∀ acc : Snapshot, Snapshot.find acc "" = none →
      Snapshot.find
        (l.foldl (fun s p => if p.sku = "" then s else Snapshot.insert s p.sku p.toKnown) acc) ""
        = none by
    exact h [] rfl
  induction l with
  | nil => intro acc hacc; simpa using hacc
  | cons p rest ih =>
      intro acc hacc
      rw [List.foldl_cons]
      by_cases hsku : p.sku = ""
      · simpa [hsku] using ih acc hacc
      · simp only [hsku, if_false]
        exact ih _ (by simp [Snapshot.find_insert, hacc, hsku])

/-- A classification event preserves every field of the record except
possibly `old_stock`. -/
theorem classifyRecord_fields (known : Snapshot) (p : Product) (c : Category) (q : Product)
    (h : classifyRecord known p = some (c, q)) :
    q.title = p.title ∧ q.sku = p.sku ∧ q.url = p.url ∧ q.stock_qty = p.stock_qty ∧
      q.price = p.price ∧ q.image = p.image := by
  rw [classifyRecord] at h
  split at h
  · simp at h
  · split at h
    · split at h
      · simp only [Option.some.injEq, Prod.mk.injEq] at h
        rw [← h.2]
        exact ⟨rfl, rfl, rfl, rfl, rfl, rfl⟩
      · simp at h
    · split at h
      · simp only [Option.some.injEq, Prod.mk.injEq] at h
        rw [← h.2]
        exact ⟨rfl, rfl, rfl, rfl, rfl, rfl⟩
      · split at h
        · simp only [Option.some.injEq, Prod.mk.injEq] at h
          rw [← h.2]
          exact ⟨rfl, rfl, rfl, rfl, rfl, rfl⟩
        · simp at h

/-- A record that produces no event is left untouched by the loop. -/
theorem processRecord_of_none (known : Snapshot) (p : Product)
    (h : classifyRecord known p = none) : processRecord known p = p := by
  rw [processRecord, h]

/-- Shape of the loop's effect on one record: either untouched, or (for a
`Restocked`/`Increased` event) annotated with the prior stock. -/
theorem processRecord_cases (known : Snapshot) (p : Product) :
    processRecord known p = p ∨
      ∃ old, Snapshot.find known p.sku = some old ∧
        processRecord known p = { p with old_stock := some (old.stock_qty.getD 0) } := by
  rcases h : classifyRecord known p with _ | ⟨c, q⟩
  · exact Or.inl (processRecord_of_none known p h)
  · have hp : processRecord known p = q := by rw [processRecord, h]
    rw [classifyRecord] at h
    split at h
    · simp at h
    · split at h
      · split at h
        · simp only [Option.some.injEq, Prod.mk.injEq] at h
          exact Or.inl (hp.trans h.2.symm)
        · simp at h
      · rename_i old heq
        split at h
        · simp only [Option.some.injEq, Prod.mk.injEq] at h
          exact Or.inr ⟨old, heq, hp.trans h.2.symm⟩
        · split at h
          · simp only [Option.some.injEq, Prod.mk.injEq] at h
            exact Or.inr ⟨old, heq, hp.trans h.2.symm⟩
          · simp at h

/-- The loop never changes a record's SKU. -/
theorem processRecord_sku (known : Snapshot) (p : Product) :
    (processRecord known p).sku = p.sku := by
  rcases processRecord_cases known p with h | ⟨old, _, h⟩ <;> rw [h]

/-- Against an empty prior snapshot the loop changes nothing: every
lookup misses, so at most an `Added` event (carrying the unchanged
record) is produced. -/
theorem processRecord_nil (p : Product) : processRecord [] p = p := by
  rcases processRecord_cases [] p with h | ⟨old, hfind, _⟩
  · exact h
  · exact absurd hfind (by simp [Snapshot.find])

/-- A record whose stored entry equals its own serialization produces no
event: the old and new stock agree. -/
theorem classifyRecord_none_of_self (known : Snapshot) (p : Product)
    (h : Snapshot.find known p.sku = some p.toKnown) : classifyRecord known p = none := by
  rw [classifyRecord]
  split
  · rfl
  · split
    · rename_i heq
      rw [h] at heq
      simp at heq
    · rename_i old heq
      rw [h] at heq
      obtain rfl : p.toKnown = old := Option.some_inj.mp heq
      have hg : (Product.toKnown p).stock_qty.getD 0 = p.stock_qty := rfl
      rw [hg]
      have h1 : ¬ (p.stock_qty = 0 ∧ p.stock_qty > 0) := by omega
      have h2 : ¬ (p.stock_qty > p.stock_qty ∧ p.stock_qty > 0) := by omega
      rw [if_neg h1, if_neg h2]

/-- The classification loop, decomposed: each event list collects the
per-record events in iteration order, and the current list after the
loop is the records with their annotations applied. -/
theorem classify_eq (known : Snapshot) (l : List Product) :
    classify known l =
      ⟨l.filterMap (restockedOf known), l.filterMap (increasedOf known),
        l.filterMap (addedOf known), l.map (processRecord known)⟩ := by
  induction l with
  | nil => rfl
  | cons p rest ih =>
      simp only [classify, ih]
      rcases h : classifyRecord known p with _ | ⟨c, q⟩
      · simp [List.filterMap_cons, restockedOf, increasedOf, addedOf, processRecord, h]
      · cases c <;>
          simp [List.filterMap_cons, restockedOf, increasedOf, addedOf, processRecord, h]

/-- A `Restocked` event has the SKU of the record that produced it. -/
theorem restockedOf_sku (known : Snapshot) (a q : Product)
    (h : restockedOf known a = some q) : q.sku = a.sku := by
  rw [restockedOf] at h
  split at h
  · rename_i heq
    obtain rfl : _ = q := Option.some_inj.mp h
    exact (classifyRecord_fields known a Category.Restocked _ heq).2.1
  · simp at h

/-- An `Increased` event has the SKU of the record that produced it. -/
theorem increasedOf_sku (known : Snapshot) (a q : Product)
    (h : increasedOf known a = some q) : q.sku = a.sku := by
  rw [increasedOf] at h
  split at h
  · rename_i heq
    obtain rfl : _ = q := Option.some_inj.mp h
    exact (classifyRecord_fields known a Category.Increased _ heq).2.1
  · simp at h

/-- An `Added` event has the SKU of the record that produced it. -/
theorem addedOf_sku (known : Snapshot) (a q : Product)
    (h : addedOf known a = some q) : q.sku = a.sku := by
  rw [addedOf] at h
  split at h
  · rename_i heq
    obtain rfl : _ = q := Option.some_inj.mp h
    exact (classifyRecord_fields known a Category.Added _ heq).2.1
  · simp at h

/-- Filtering events by SKU commutes with producing them, as long as the
producer preserves the SKU. -/
theorem filterMap_filter_sku (f : Product → Option Product)
    (hf : ∀ a q, f a = some q → q.sku = a.sku) (k : String) (l : List Product) :
    (l.filterMap f).filter (fun q => q.sku == k) =
      (l.filter (fun q => q.sku == k)).filterMap f := by
  induction l with
  | nil => rfl
  | cons a rest ih =>
      cases hfa : f a with
      | none =>
          by_cases hk : (a.sku == k) = true <;>
            simp [List.filterMap_cons, List.filter_cons, hfa, hk, ih]
      | some q =>
          have hq : q.sku = a.sku := hf a q hfa
          by_cases hk : (a.sku == k) = true <;>
            simp [List.filterMap_cons, List.filter_cons, hfa, hk, hq, ih]

/-- A list with no record keyed `k` has no last record keyed `k`. -/
theorem lastWithKey_of_filter_nil (l : List Product) (k : String)
    (h : l.filter (fun q => q.sku == k) = []) : lastWithKey l k = none := by
  induction l with
  | nil => rfl
  | cons a rest ih =>
      rw [List.filter_cons] at h
      by_cases ha : (a.sku == k) = true
      · simp [ha] at h
      · rw [if_neg ha] at h
        have hne : ¬ a.sku = k := by simpa using ha
        simp [lastWithKey, ih h, hne, Option.or]

/-- If exactly one record in the list is keyed `k`, it is the last one. -/
theorem lastWithKey_of_filter_singleton (l : List Product) (k : String) (p : Product)
    (h : l.filter (fun q => q.sku == k) = [p]) : lastWithKey l k = some p := by
  induction l with
  | nil => simp at h
  | cons a rest ih =>
      rw [List.filter_cons] at h
      by_cases ha : (a.sku == k) = true
      · rw [if_pos ha] at h
        obtain ⟨rfl, hrest⟩ : a = p ∧ rest.filter (fun q => q.sku == k) = [] := by
          constructor
          · exact (List.cons_eq_cons.mp h).1
          · exact (List.cons_eq_cons.mp h).2
        have heq : a.sku = k := by simpa using ha
        simp [lastWithKey, lastWithKey_of_filter_nil rest k hrest, heq, Option.or]
      · rw [if_neg ha] at h
        simp [lastWithKey, ih h, Option.or]

/-- `lastWithKey` commutes with a SKU-preserving map. -/
theorem lastWithKey_map (f : Product → Product) (hf : ∀ p, (f p).sku = p.sku)
    (l : List Product) (k : String) :
    lastWithKey (l.map f) k = (lastWithKey l k).map f := by
  induction l with
  | nil => rfl
  | cons a rest ih =>
      rw [List.map_cons, lastWithKey, lastWithKey, ih, hf]
      cases lastWithKey rest k with
      | some q => simp [Option.or]
      | none => by_cases ha : a.sku = k <;> simp [ha, Option.or]

/-- With pairwise-distinct SKUs, the only record keyed like a member `p`
is `p` itself. -/
theorem filter_eq_singleton_of_nodup (l : List Product) (h : (l.map Product.sku).Nodup)
    (p : Product) (hp : p ∈ l) : l.filter (fun q => q.sku == p.sku) = [p] := by
  induction l with
  | nil => cases hp
  | cons a rest ih =>
      rw [List.map_cons, List.nodup_cons] at h
      rcases List.mem_cons.mp hp with rfl | hmem
      · rw [List.filter_cons, if_pos (by simp)]
        have hnil : rest.filter (fun q => q.sku == p.sku) = [] := by
          rw [List.filter_eq_nil_iff]
          intro q hq hbeq
          exact h.1 (List.mem_map.mpr ⟨q, hq, (by simpa using hbeq)⟩)
        rw [hnil]
      · have hne : ¬ (a.sku == p.sku) = true := by
          intro hbeq
          exact h.1 (by
            rw [show a.sku = p.sku from by simpa using hbeq]
            exact List.mem_map.mpr ⟨p, hmem, rfl⟩)
        rw [List.filter_cons, if_neg hne]
        exact ih h.2 hmem

/-- For a non-empty key, filtering by that key ignores the empty-key
records. -/
theorem filter_sku_through_ne (l : List Product) (k : String) (hk : k ≠ "") :
    (l.filter (fun q => q.sku != "")).filter (fun q => q.sku == k) =
      l.filter (fun q => q.sku == k) := by
  induction l with
  | nil => rfl
  | cons a rest ih =>
      by_cases ha : a.sku = ""
      · have h1 : (a.sku != "") = false := by simp [ha]
        have h2 : ¬ (a.sku == k) = true := by
          simp only [ha, beq_iff_eq]
          exact fun h => hk h.symm
        simp [List.filter_cons, h1, h2, ih]
      · have h1 : (a.sku != "") = true := by simp [ha]
        by_cases h2 : (a.sku == k) = true <;> simp [List.filter_cons, h1, h2, ih]

/-- A successful lookup means the key is one of the snapshot's keys. -/
theorem find_mem (s : Snapshot) (k : String) (v : KnownRec)
    (h : Snapshot.find s k = some v) : ∃ kv ∈ s, kv.1 = k := by
  induction s with
  | nil => simp [Snapshot.find] at h
  | cons kv rest ih =>
      rw [Snapshot.find] at h
      by_cases hkv : kv.1 = k
      · exact ⟨kv, List.mem_cons_self kv rest, hkv⟩
      · rw [if_neg hkv] at h
        obtain ⟨kw, hkw, hk⟩ := ih h
        exact ⟨kw, List.mem_cons_of_mem kv hkw, hk⟩

/-- The decidable snapshot equivalence coincides with pointwise equality
of lookups over all keys. -/
theorem equivb_iff (s t : Snapshot) :
    Snapshot.equivb s t = true ↔ ∀ k, Snapshot.find s k = Snapshot.find t k := by
  constructor
  · intro h k
    rw [Snapshot.equivb, Bool.and_eq_true, List.all_eq_true, List.all_eq_true] at h
    cases hs : Snapshot.find s k with
    | some v =>
        obtain ⟨kv, hkv, hk1⟩ := find_mem s k v hs
        have := of_decide_eq_true (h.1 kv hkv)
        rw [hk1, hs] at this
        exact this.symm
    | none =>
        cases ht : Snapshot.find t k with
        | none => rfl
        | some w =>
            obtain ⟨kv, hkv, hk1⟩ := find_mem t k w ht
            have := of_decide_eq_true (h.2 kv hkv)
            rw [hk1, hs, ht] at this
            exact this
  · intro h
    rw [Snapshot.equivb, Bool.and_eq_true, List.all_eq_true, List.all_eq_true]
    exact ⟨fun kv _ => decide_eq_true (h kv.1).symm, fun kv _ => decide_eq_true (h kv.1)⟩

/-- Snapshot equivalence is reflexive. -/
theorem equivb_refl (s : Snapshot) : Snapshot.equivb s s = true :=
  (equivb_iff s s).mpr (fun _ => rfl)

/-- In a cycle that reaches classification, the `Restocked` events are
the per-record restock events in fetch order. -/
theorem main_cycle_restocked (deliver : Message → Bool) (known : Snapshot)
    (current : List Product) (hc : current.isEmpty = false) (hk : known.isEmpty = false) :
    (main_cycle deliver known current).restocked = current.filterMap (restockedOf known) := by
  simp [main_cycle, hc, hk, classify_eq]

/-- In a cycle that reaches classification, the `Increased` events are
the per-record increase events in fetch order. -/
theorem main_cycle_increased (deliver : Message → Bool) (known : Snapshot)
    (current : List Product) (hc : current.isEmpty = false) (hk : known.isEmpty = false) :
    (main_cycle deliver known current).increased = current.filterMap (increasedOf known) := by
  simp [main_cycle, hc, hk, classify_eq]

/-- In a cycle that reaches classification, the `Added` events are the
per-record added events in fetch order. -/
theorem main_cycle_added (deliver : Message → Bool) (known : Snapshot)
    (current : List Product) (hc : current.isEmpty = false) (hk : known.isEmpty = false) :
    (main_cycle deliver known current).new_products = current.filterMap (addedOf known) := by
  simp [main_cycle, hc, hk, classify_eq]

/-- In a cycle that reaches classification, the persisted snapshot is
the save of the (possibly annotated) current records. -/
theorem main_cycle_snapshot_run (deliver : Message → Bool) (known : Snapshot)
    (current : List Product) (hc : current.isEmpty = false) (hk : known.isEmpty = false) :
    (main_cycle deliver known current).snapshot =
      save_known_products (current.map (processRecord known)) := by
  simp [main_cycle, hc, hk, classify_eq]

/-- A cycle with no events sends no messages. -/
theorem main_cycle_messages_nil (deliver : Message → Bool) (known : Snapshot)
    (current : List Product) (hc : current.isEmpty = false) (hk : known.isEmpty = false)
    (h1 : current.filterMap (restockedOf known) = [])
    (h2 : current.filterMap (increasedOf known) = [])
    (h3 : current.filterMap (addedOf known) = []) :
    (main_cycle deliver known current).messages = [] := by
  simp [main_cycle, hc, hk, classify_eq, h1, h2, h3]

/-- Whatever branch a non-empty fetch takes, the snapshot entry stored
for a non-empty key is the last fetched record with that key, as left by
the classification loop. -/
theorem main_cycle_snapshot_find (deliver : Message → Bool) (known : Snapshot)
    (current : List Product) (k : String) (hk : k ≠ "") (hc : current.isEmpty = false) :
    Snapshot.find (main_cycle deliver known current).snapshot k
      = (lastWithKey current k).map (fun p => (processRecord known p).toKnown) := by
  by_cases hkn : known.isEmpty = true
  · obtain rfl : known = [] := by simpa using hkn
    have hs : (main_cycle deliver [] current).snapshot = save_known_products current := by
      simp [main_cycle, hc, hkn]
    rw [hs, save_find current k hk]
    cases lastWithKey current k with
    | none => rfl
    | some p => simp [processRecord_nil]
  · have hkn2 : known.isEmpty = false := by simpa using hkn
    rw [main_cycle_snapshot_run deliver known current hc hkn2,
      save_find _ k hk, lastWithKey_map (processRecord known) (processRecord_sku known) current k]
    cases lastWithKey current k with
    | none => rfl
    | some p => rfl

/-- Per key, the classification loop emits at most one event per
occurrence of the key in the current list. -/
theorem count_events_le (known : Snapshot) (k : String) (l : List Product) :
    ((l.filterMap (restockedOf known)).filter (fun q => q.sku == k)).length
      + ((l.filterMap (increasedOf known)).filter (fun q => q.sku == k)).length
      + ((l.filterMap (addedOf known)).filter (fun q => q.sku == k)).length
      ≤ (l.filter (fun q => q.sku == k)).length := by
  induction l with
  | nil => simp
  | cons p rest ih =>
      rcases h : classifyRecord known p with _ | ⟨c, q⟩
      · have hr : restockedOf known p = none := by rw [restockedOf, h]
        have hi : increasedOf known p = none := by rw [increasedOf, h]
        have hn : addedOf known p = none := by rw [addedOf, h]
        by_cases hk2 : (p.sku == k) = true <;>
          simp only [List.filterMap_cons, List.filter_cons, hr, hi, hn, hk2, if_true, if_false,
            Bool.false_eq_true, List.length_cons] <;>
          omega
      · have hq : q.sku = p.sku := (classifyRecord_fields known p c q h).2.1
        cases c
        · have hr : restockedOf known p = some q := by rw [restockedOf, h]
          have hi : increasedOf known p = none := by rw [increasedOf, h]
          have hn : addedOf known p = none := by rw [addedOf, h]
          by_cases hk2 : (p.sku == k) = true <;>
            simp only [List.filterMap_cons, List.filter_cons, hr, hi, hn, hq, hk2, if_true,
              if_false, Bool.false_eq_true, List.length_cons] <;>
            omega
        · have hr : restockedOf known p = none := by rw [restockedOf, h]
          have hi : increasedOf known p = some q := by rw [increasedOf, h]
          have hn : addedOf known p = none := by rw [addedOf, h]
          by_cases hk2 : (p.sku == k) = true <;>
            simp only [List.filterMap_cons, List.filter_cons, hr, hi, hn, hq, hk2, if_true,
              if_false, Bool.false_eq_true, List.length_cons] <;>
            omega
        · have hr : restockedOf known p = none := by rw [restockedOf, h]
          have hi : increasedOf known p = none := by rw [increasedOf, h]
          have hn : addedOf known p = some q := by rw [addedOf, h]
          by_cases hk2 : (p.sku == k) = true <;>
            simp only [List.filterMap_cons, List.filter_cons, hr, hi, hn, hq, hk2, if_true,
              if_false, Bool.false_eq_true, List.length_cons] <;>
            omega

/-- Classification of a record whose SKU is stored: the two stock
conditions of lines 197–202, in order. -/
theorem classifyRecord_present (known : Snapshot) (p : Product) (old : KnownRec)
    (hsku : ¬ p.sku = "") (hfind : Snapshot.find known p.sku = some old) :
    classifyRecord known p =
      if old.stock_qty.getD 0 = 0 ∧ p.stock_qty > 0 then
        some (Category.Restocked, { p with old_stock := some (old.stock_qty.getD 0) })
      else if p.stock_qty > old.stock_qty.getD 0 ∧ old.stock_qty.getD 0 > 0 then
        some (Category.Increased, { p with old_stock := some (old.stock_qty.getD 0) })
      else none := by
  rw [classifyRecord, if_neg hsku, hfind]

/-- Classification of a record whose SKU is not stored: `Added` iff the
fetched stock is positive (lines 189–191). -/
theorem classifyRecord_absent (known : Snapshot) (p : Product)
    (hsku : ¬ p.sku = "") (hfind : Snapshot.find known p.sku = none) :
    classifyRecord known p =
      if p.stock_qty > 0 then some (Category.Added, p) else none := by
  rw [classifyRecord, if_neg hsku, hfind]

/-- The `Restocked` event for a stored SKU, by the stock condition. -/
theorem restockedOf_present (known : Snapshot) (p : Product) (old : KnownRec)
    (hsku : ¬ p.sku = "") (hfind : Snapshot.find known p.sku = some old) :
    restockedOf known p =
      if old.stock_qty.getD 0 = 0 ∧ p.stock_qty > 0 then
        some { p with old_stock := some (old.stock_qty.getD 0) }
      else none := by
  rw [restockedOf, classifyRecord_present known p old hsku hfind]
  by_cases h1 : old.stock_qty.getD 0 = 0 ∧ p.stock_qty > 0
  · rw [if_pos h1, if_pos h1]
  · rw [if_neg h1, if_neg h1]
    by_cases h2 : p.stock_qty > old.stock_qty.getD 0 ∧ old.stock_qty.getD 0 > 0
    · rw [if_pos h2]
    · rw [if_neg h2]

/-- The `Increased` event for a stored SKU, by the stock condition (the
two conditions are mutually exclusive, so the `elif` guard reduces). -/
theorem increasedOf_present (known : Snapshot) (p : Product) (old : KnownRec)
    (hsku : ¬ p.sku = "") (hfind : Snapshot.find known p.sku = some old) :
    increasedOf known p =
      if p.stock_qty > old.stock_qty.getD 0 ∧ old.stock_qty.getD 0 > 0 then
        some { p with old_stock := some (old.stock_qty.getD 0) }
      else none := by
  rw [increasedOf, classifyRecord_present known p old hsku hfind]
  by_cases h1 : old.stock_qty.getD 0 = 0 ∧ p.stock_qty > 0
  · have h2 : ¬ (p.stock_qty > old.stock_qty.getD 0 ∧ old.stock_qty.getD 0 > 0) := by omega
    rw [if_pos h1, if_neg h2]
  · rw [if_neg h1]
    by_cases h2 : p.stock_qty > old.stock_qty.getD 0 ∧ old.stock_qty.getD 0 > 0
    · rw [if_pos h2, if_pos h2]
    · rw [if_neg h2, if_neg h2]

/-- A stored SKU never yields an `Added` event. -/
theorem addedOf_present (known : Snapshot) (p : Product) (old : KnownRec)
    (hsku : ¬ p.sku = "") (hfind : Snapshot.find known p.sku = some old) :
    addedOf known p = none := by
  rw [addedOf, classifyRecord_present known p old hsku hfind]
  by_cases h1 : old.stock_qty.getD 0 = 0 ∧ p.stock_qty > 0
  · rw [if_pos h1]
  · rw [if_neg h1]
    by_cases h2 : p.stock_qty > old.stock_qty.getD 0 ∧ old.stock_qty.getD 0 > 0
    · rw [if_pos h2]
    · rw [if_neg h2]

/-- An absent SKU never yields a `Restocked` event. -/
theorem restockedOf_absent (known : Snapshot) (p : Product)
    (hsku : ¬ p.sku = "") (hfind : Snapshot.find known p.sku = none) :
    restockedOf known p = none := by
  rw [restockedOf, classifyRecord_absent known p hsku hfind]
  by_cases h1 : p.stock_qty > 0
  · rw [if_pos h1]
  · rw [if_neg h1]

/-- An absent SKU never yields an `Increased` event. -/
theorem increasedOf_absent (known : Snapshot) (p : Product)
    (hsku : ¬ p.sku = "") (hfind : Snapshot.find known p.sku = none) :
    increasedOf known p = none := by
  rw [increasedOf, classifyRecord_absent known p hsku hfind]
  by_cases h1 : p.stock_qty > 0
  · rw [if_pos h1]
  · rw [if_neg h1]

/-- The `Added` event for an absent SKU: the record itself, iff its
fetched stock is positive. -/
theorem addedOf_absent (known : Snapshot) (p : Product)
    (hsku : ¬ p.sku = "") (hfind : Snapshot.find known p.sku = none) :
    addedOf known p = if p.stock_qty > 0 then some p else none := by
  rw [addedOf, classifyRecord_absent known p hsku hfind]
  by_cases h1 : p.stock_qty > 0
  · rw [if_pos h1, if_pos h1]
  · rw [if_neg h1, if_neg h1]

/-- An empty fetch takes the abort branch (lines 167–169): nothing
happens and the snapshot is untouched. -/
theorem main_cycle_abort (deliver : Message → Bool) (known : Snapshot)
    (current : List Product) (hc : current.isEmpty = true) :
    main_cycle deliver known current =
      { restocked := [], increased := [], new_products := [], messages := [],
        deliveries := [], snapshot := known, saved := false } := by
  rw [main_cycle, if_pos hc]

/-- A non-empty fetch against an empty prior snapshot takes the
first-run branch (lines 175–178): save and return. -/
theorem main_cycle_first_run (deliver : Message → Bool) (known : Snapshot)
    (current : List Product) (hc : current.isEmpty = false) (hkn : known.isEmpty = true) :
    main_cycle deliver known current =
      { restocked := [], increased := [], new_products := [], messages := [],
        deliveries := [], snapshot := save_known_products current, saved := true } := by
  rw [main_cycle, if_neg (by simp [hc]), if_pos hkn]

/-- `filterMap` over a one-element list. -/
theorem filterMap_singleton {α β : Type} (f : α → Option β) (a : α) :
    ([a].filterMap f) = (f a).toList := by
  cases h : f a <;> simp [List.filterMap_cons, h]

/-- Projecting the first component out of tagging recovers the list. -/
theorem map_fst_pair {α β : Type} (g : α → β) (l : List α) :
    (l.map (fun m => (m, g m))).map Prod.fst = l := by
  induction l with
  | nil => rfl
  | cons a rest ih => simp [ih]

/-- The delivery attempts are exactly the messages, each paired with its
transport outcome, in order. -/
theorem main_cycle_deliveries (deliver : Message → Bool) (known : Snapshot)
    (current : List Product) :
    (main_cycle deliver known current).deliveries
      = (main_cycle deliver known current).messages.map (fun m => (m, deliver m)) := by
  by_cases hc : current.isEmpty = true
  · simp [main_cycle, hc]
  · by_cases hkn : known.isEmpty = true
    · simp [main_cycle, hc, hkn]
    · simp [main_cycle, hc, hkn]

/-- The messages built by a cycle do not depend on delivery outcomes. -/
theorem main_cycle_messages_indep (d1 d2 : Message → Bool) (known : Snapshot)
    (current : List Product) :
    (main_cycle d1 known current).messages = (main_cycle d2 known current).messages := by
  by_cases hc : current.isEmpty = true
  · simp [main_cycle, hc]
  · by_cases hkn : known.isEmpty = true
    · simp [main_cycle, hc, hkn]
    · simp [main_cycle, hc, hkn]

/-- The persisted snapshot does not depend on delivery outcomes. -/
theorem main_cycle_snapshot_indep (d1 d2 : Message → Bool) (known : Snapshot)
    (current : List Product) :
    (main_cycle d1 known current).snapshot = (main_cycle d2 known current).snapshot := by
  by_cases hc : current.isEmpty = true
  · simp [main_cycle, hc]
  · by_cases hkn : known.isEmpty = true
    · simp [main_cycle, hc, hkn]
    · simp [main_cycle, hc, hkn]

/-- Whether a save happens does not depend on delivery outcomes. -/
theorem main_cycle_saved_indep (d1 d2 : Message → Bool) (known : Snapshot)
    (current : List Product) :
    (main_cycle d1 known current).saved = (main_cycle d2 known current).saved := by
  by_cases hc : current.isEmpty = true
  · simp [main_cycle, hc]
  · by_cases hkn : known.isEmpty = true
    · simp [main_cycle, hc, hkn]
    · simp [main_cycle, hc, hkn]

/-- Claim C1: the spec requires events beyond the per-message cap to be
split into additional messages of the same category, with no event
absent from every message; the code instead truncates.  Evaluated at the
failing input — a non-empty prior snapshot (`knownZ`) and 11 newly added
in-stock products with `cap = 10` — the cycle produces 11 `Added`
events but only one message, carrying 10 detail blocks, and the 11th
product's URL appears in no message at all. -/
theorem C1_batching_truncates :
    (main_cycle (fun _ => true) knownZ elevenNew).new_products.length = 11 ∧
    (main_cycle (fun _ => true) knownZ elevenNew).messages.length = 1 ∧
    (main_cycle (fun _ => true) knownZ elevenNew).messages.map (fun m => m.details.length)
      = [10] ∧
    ((main_cycle (fun _ => true) knownZ elevenNew).messages.all
      (fun m => m.details.all (fun d => d.url != (mkP "S11" 1).url))) = true := by
  decide

/-- Claim C8: a cycle whose fetch yields zero records aborts before
classification with no state change: no events, no messages, no delivery
attempts, the snapshot exactly as it was, and no save. -/
theorem C8_empty_fetch_aborts (deliver : Message → Bool) (known : Snapshot)
    (current : List Product) (hc : current.isEmpty = true) :
    main_cycle deliver known current =
      { restocked := [], increased := [], new_products := [], messages := [],
        deliveries := [], snapshot := known, saved := false } := by
  rw [main_cycle, if_pos hc]

/-- Witness for C8 at the concrete empty fetch. -/
theorem C8_witness :
    ([] : List Product).isEmpty = true ∧
    main_cycle (fun _ => true) knownA0 [] =
      { restocked := [], increased := [], new_products := [], messages := [],
        deliveries := [], snapshot := knownA0, saved := false } :=
  ⟨rfl, C8_empty_fetch_aborts (fun _ => true) knownA0 [] rfl⟩

/-- Claim C9: delivery outcomes never steer the cycle.  Every message is
attempted exactly once in order regardless of earlier failures, and the
messages, the persisted snapshot and the save decision are identical to
those of a cycle whose transport always succeeds; a non-empty fetch
always ends in a save that replaces the snapshot with the just-fetched
(annotation-applied) record set. -/
theorem C9_delivery_failure_no_block (deliver : Message → Bool) (known : Snapshot)
    (current : List Product) :
    (main_cycle deliver known current).deliveries.map Prod.fst
        = (main_cycle deliver known current).messages
    ∧ (main_cycle deliver known current).messages
        = (main_cycle (fun _ => true) known current).messages
    ∧ (main_cycle deliver known current).snapshot
        = (main_cycle (fun _ => true) known current).snapshot
    ∧ (main_cycle deliver known current).saved
        = (main_cycle (fun _ => true) known current).saved
    ∧ (current.isEmpty = false →
        (main_cycle deliver known current).saved = true ∧
        (main_cycle deliver known current).snapshot
          = save_known_products (current.map (processRecord known))) := by
  refine ⟨by rw [main_cycle_deliveries, map_fst_pair],
    main_cycle_messages_indep deliver (fun _ => true) known current,
    main_cycle_snapshot_indep deliver (fun _ => true) known current,
    main_cycle_saved_indep deliver (fun _ => true) known current,
    fun hc2 => ?_⟩
  by_cases hkn : known.isEmpty = true
  · rw [main_cycle_first_run deliver known current hc2 hkn]
    refine ⟨rfl, ?_⟩
    show save_known_products current = save_known_products (current.map (processRecord known))
    obtain rfl : known = [] := by simpa using hkn
    have h1 : current.map (processRecord []) = current.map id :=
      List.map_congr_left (fun p _ => processRecord_nil p)
    rw [h1, List.map_id]
  · have hkn2 : known.isEmpty = false := by simpa using hkn
    refine ⟨?_, main_cycle_snapshot_run deliver known current hc2 hkn2⟩
    simp [main_cycle, hc2, hkn2]

/-- Witness for C9 at a concrete failing transport: one restock message
is still attempted, and the snapshot is still replaced. -/
theorem C9_witness :
    (main_cycle (fun _ => false) knownA0 [mkP "A" 5]).deliveries.map Prod.fst
        = (main_cycle (fun _ => false) knownA0 [mkP "A" 5]).messages
    ∧ (main_cycle (fun _ => false) knownA0 [mkP "A" 5]).snapshot
        = (main_cycle (fun _ => true) knownA0 [mkP "A" 5]).snapshot
    ∧ ([mkP "A" 5] : List Product).isEmpty = false
    ∧ (main_cycle (fun _ => false) knownA0 [mkP "A" 5]).saved = true
    ∧ (main_cycle (fun _ => false) knownA0 [mkP "A" 5]).snapshot
        = save_known_products ([mkP "A" 5].map (processRecord knownA0)) :=
  ⟨(C9_delivery_failure_no_block (fun _ => false) knownA0 [mkP "A" 5]).1,
    (C9_delivery_failure_no_block (fun _ => false) knownA0 [mkP "A" 5]).2.2.1,
    rfl,
    ((C9_delivery_failure_no_block (fun _ => false) knownA0 [mkP "A" 5]).2.2.2.2 rfl).1,
    ((C9_delivery_failure_no_block (fun _ => false) knownA0 [mkP "A" 5]).2.2.2.2 rfl).2⟩

/-- Claim C3: for a record whose non-empty key is present in the prior
snapshot and occurs exactly once in the fetch, with `old_stock` the
stored quantity (read with default 0) and `new_stock` the fetched one:
exactly one `Restocked` event carrying `old_stock` is emitted iff
`old_stock == 0` and `new_stock > 0`; exactly one `Increased` event
carrying `old_stock` is emitted iff `new_stock > old_stock > 0`; in
every other case no event is emitted for that key, and it never yields
an `Added` event. -/
theorem C3_present_key_transitions (deliver : Message → Bool) (known : Snapshot)
    (current : List Product) (p : Product) (old : KnownRec) (hsku : ¬ p.sku = "")
    (hfind : Snapshot.find known p.sku = some old)
    (hone : current.filter (fun q => q.sku == p.sku) = [p]) :
    (main_cycle deliver known current).restocked.filter (fun q => q.sku == p.sku)
      = (if old.stock_qty.getD 0 = 0 ∧ p.stock_qty > 0 then
          [{ p with old_stock := some (old.stock_qty.getD 0) }] else [])
    ∧ (main_cycle deliver known current).increased.filter (fun q => q.sku == p.sku)
      = (if p.stock_qty > old.stock_qty.getD 0 ∧ old.stock_qty.getD 0 > 0 then
          [{ p with old_stock := some (old.stock_qty.getD 0) }] else [])
    ∧ (main_cycle deliver known current).new_products.filter (fun q => q.sku == p.sku) = [] := by
  have hc : current.isEmpty = false := by
    cases current with
    | nil => simp at hone
    | cons a l => rfl
  have hkn : known.isEmpty = false := by
    cases known with
    | nil => simp [Snapshot.find] at hfind
    | cons kv rest => rfl
  refine ⟨?_, ?_, ?_⟩
  · rw [main_cycle_restocked deliver known current hc hkn,
      filterMap_filter_sku (restockedOf known) (restockedOf_sku known) p.sku current, hone,
      filterMap_singleton, restockedOf_present known p old hsku hfind]
    by_cases h1 : old.stock_qty.getD 0 = 0 ∧ p.stock_qty > 0
    · simp [h1]
    · simp [h1]
  · rw [main_cycle_increased deliver known current hc hkn,
      filterMap_filter_sku (increasedOf known) (increasedOf_sku known) p.sku current, hone,
      filterMap_singleton, increasedOf_present known p old hsku hfind]
    by_cases h2 : p.stock_qty > old.stock_qty.getD 0 ∧ old.stock_qty.getD 0 > 0
    · simp [h2]
    · simp [h2]
  · rw [main_cycle_added deliver known current hc hkn,
      filterMap_filter_sku (addedOf known) (addedOf_sku known) p.sku current, hone,
      filterMap_singleton, addedOf_present known p old hsku hfind]
    rfl

/-- Witness for C3 at a concrete restock: prior stock 0, fetched
stock 5. -/
theorem C3_witness :
    ¬ (mkP "A" 5).sku = "" ∧
    Snapshot.find knownA0 (mkP "A" 5).sku = some ((mkP "A" 0).toKnown) ∧
    ([mkP "A" 5] : List Product).filter (fun q => q.sku == (mkP "A" 5).sku) = [mkP "A" 5] ∧
    ((main_cycle (fun _ => true) knownA0 [mkP "A" 5]).restocked.filter
        (fun q => q.sku == (mkP "A" 5).sku)
      = (if ((mkP "A" 0).toKnown).stock_qty.getD 0 = 0 ∧ (mkP "A" 5).stock_qty > 0 then
          [{ mkP "A" 5 with old_stock := some (((mkP "A" 0).toKnown).stock_qty.getD 0) }]
          else [])
    ∧ (main_cycle (fun _ => true) knownA0 [mkP "A" 5]).increased.filter
        (fun q => q.sku == (mkP "A" 5).sku)
      = (if (mkP "A" 5).stock_qty > ((mkP "A" 0).toKnown).stock_qty.getD 0 ∧
            ((mkP "A" 0).toKnown).stock_qty.getD 0 > 0 then
          [{ mkP "A" 5 with old_stock := some (((mkP "A" 0).toKnown).stock_qty.getD 0) }]
          else [])
    ∧ (main_cycle (fun _ => true) knownA0 [mkP "A" 5]).new_products.filter
        (fun q => q.sku == (mkP "A" 5).sku) = []) :=
  ⟨by decide, by decide, by decide,
    C3_present_key_transitions (fun _ => true) knownA0 [mkP "A" 5] (mkP "A" 5)
      ((mkP "A" 0).toKnown) (by decide) (by decide) (by decide)⟩

/-- Claim C4: a record whose non-empty key is absent from the (non-empty)
prior snapshot and occurs exactly once in the fetch yields an `Added`
event iff its fetched stock is positive, never a `Restocked` or
`Increased` event, and is persisted in the new snapshot unchanged even
when its stock is zero. -/
theorem C4_absent_key_added (deliver : Message → Bool) (known : Snapshot)
    (current : List Product) (p : Product) (hsku : ¬ p.sku = "")
    (hfind : Snapshot.find known p.sku = none) (hkn : known.isEmpty = false)
    (hone : current.filter (fun q => q.sku == p.sku) = [p]) :
    (main_cycle deliver known current).new_products.filter (fun q => q.sku == p.sku)
      = (if p.stock_qty > 0 then [p] else [])
    ∧ (main_cycle deliver known current).restocked.filter (fun q => q.sku == p.sku) = []
    ∧ (main_cycle deliver known current).increased.filter (fun q => q.sku == p.sku) = []
    ∧ Snapshot.find (main_cycle deliver known current).snapshot p.sku = some p.toKnown := by
  have hc : current.isEmpty = false := by
    cases current with
    | nil => simp at hone
    | cons a l => rfl
  have hproc : processRecord known p = p := by
    rcases processRecord_cases known p with h | ⟨old, hfind2, _⟩
    · exact h
    · rw [hfind] at hfind2
      cases hfind2
  refine ⟨?_, ?_, ?_, ?_⟩
  · rw [main_cycle_added deliver known current hc hkn,
      filterMap_filter_sku (addedOf known) (addedOf_sku known) p.sku current, hone,
      filterMap_singleton, addedOf_absent known p hsku hfind]
    by_cases h1 : p.stock_qty > 0
    · simp [h1]
    · simp [h1]
  · rw [main_cycle_restocked deliver known current hc hkn,
      filterMap_filter_sku (restockedOf known) (restockedOf_sku known) p.sku current, hone,
      filterMap_singleton, restockedOf_absent known p hsku hfind]
    rfl
  · rw [main_cycle_increased deliver known current hc hkn,
      filterMap_filter_sku (increasedOf known) (increasedOf_sku known) p.sku current, hone,
      filterMap_singleton, increasedOf_absent known p hsku hfind]
    rfl
  · rw [main_cycle_snapshot_find deliver known current p.sku hsku hc,
      lastWithKey_of_filter_singleton current p.sku p hone]
    simp [hproc]

/-- Witness for C4 at a concrete new-but-zero record: no event, but the
record is persisted. -/
theorem C4_witness :
    ¬ (mkP "B" 0).sku = "" ∧
    Snapshot.find knownA0 (mkP "B" 0).sku = none ∧
    (knownA0 : Snapshot).isEmpty = false ∧
    ([mkP "B" 0] : List Product).filter (fun q => q.sku == (mkP "B" 0).sku) = [mkP "B" 0] ∧
    ((main_cycle (fun _ => true) knownA0 [mkP "B" 0]).new_products.filter
        (fun q => q.sku == (mkP "B" 0).sku)
      = (if (mkP "B" 0).stock_qty > 0 then [mkP "B" 0] else [])
    ∧ (main_cycle (fun _ => true) knownA0 [mkP "B" 0]).restocked.filter
        (fun q => q.sku == (mkP "B" 0).sku) = []
    ∧ (main_cycle (fun _ => true) knownA0 [mkP "B" 0]).increased.filter
        (fun q => q.sku == (mkP "B" 0).sku) = []
    ∧ Snapshot.find (main_cycle (fun _ => true) knownA0 [mkP "B" 0]).snapshot (mkP "B" 0).sku
        = some (mkP "B" 0).toKnown) :=
  ⟨by decide, by decide, by decide, by decide,
    C4_absent_key_added (fun _ => true) knownA0 [mkP "B" 0] (mkP "B" 0)
      (by decide) (by decide) (by decide) (by decide)⟩

/-- Claim C10: a stored record lacking the `stock_qty` field is read as
stock 0, so a fetched record with positive stock for that key yields
exactly one `Restocked` event with `old_stock = 0` — and classification
is total, never an error. -/
theorem C10_missing_stock_field (deliver : Message → Bool) (known : Snapshot)
    (current : List Product) (p : Product) (old : KnownRec) (hsku : ¬ p.sku = "")
    (hfind : Snapshot.find known p.sku = some old) (hmiss : old.stock_qty = none)
    (hpos : p.stock_qty > 0)
    (hone : current.filter (fun q => q.sku == p.sku) = [p]) :
    (main_cycle deliver known current).restocked.filter (fun q => q.sku == p.sku)
      = [{ p with old_stock := some 0 }]
    ∧ (main_cycle deliver known current).increased.filter (fun q => q.sku == p.sku) = []
    ∧ (main_cycle deliver known current).new_products.filter (fun q => q.sku == p.sku) = [] := by
  have hgd : old.stock_qty.getD 0 = 0 := by rw [hmiss]; rfl
  obtain ⟨h1, h2, h3⟩ :=
    C3_present_key_transitions deliver known current p old hsku hfind hone
  rw [hgd] at h1 h2
  refine ⟨?_, ?_, h3⟩
  · rw [h1, if_pos ⟨rfl, hpos⟩]
  · rw [h2, if_neg (by omega)]

/-- Witness for C10 at a concrete stored record with no `stock_qty`. -/
theorem C10_witness :
    ¬ (mkP "A" 4).sku = "" ∧
    Snapshot.find knownNoQty (mkP "A" 4).sku = some recNoQty ∧
    recNoQty.stock_qty = none ∧
    (mkP "A" 4).stock_qty > 0 ∧
    ([mkP "A" 4] : List Product).filter (fun q => q.sku == (mkP "A" 4).sku) = [mkP "A" 4] ∧
    ((main_cycle (fun _ => true) knownNoQty [mkP "A" 4]).restocked.filter
        (fun q => q.sku == (mkP "A" 4).sku) = [{ mkP "A" 4 with old_stock := some 0 }]
    ∧ (main_cycle (fun _ => true) knownNoQty [mkP "A" 4]).increased.filter
        (fun q => q.sku == (mkP "A" 4).sku) = []
    ∧ (main_cycle (fun _ => true) knownNoQty [mkP "A" 4]).new_products.filter
        (fun q => q.sku == (mkP "A" 4).sku) = []) :=
  ⟨by decide, by decide, by decide, by decide, by decide,
    C10_missing_stock_field (fun _ => true) knownNoQty [mkP "A" 4] (mkP "A" 4) recNoQty
      (by decide) (by decide) (by decide) (by decide) (by decide)⟩

/-- Counterexample to claim C2 as stated: with prior snapshot
`knownA0 = {A ↦ qty 0}` and a fetch containing SKU `A` twice (qty 5 then
qty 3), the classification loop classifies each occurrence against the
prior snapshot and emits two `Restocked` events for the single key `A` —
not at most one. -/
theorem C2_counterexample :
    ((main_cycle (fun _ => true) knownA0 [mkP "A" 5, mkP "A" 3]).restocked.filter
        (fun p => p.sku == "A")).length = 2 := by
  decide

/-- Claim C2 (amended): classification emits at most one event per
occurrence of a key in the current list — so for a key occurring at most
once, at most one event — while a key occurring several times is
classified once per occurrence against the prior snapshot and may yield
several events; the persisted snapshot entry for the key is always the
last occurrence (as left by the loop's annotation). -/
theorem C2_events_per_occurrence (deliver : Message → Bool) (known : Snapshot)
    (current : List Product) (k : String) (hk : k ≠ "") (hc : current.isEmpty = false) :
    (((main_cycle deliver known current).restocked
        ++ (main_cycle deliver known current).increased
        ++ (main_cycle deliver known current).new_products).filter
        (fun q => q.sku == k)).length
      ≤ (current.filter (fun q => q.sku == k)).length
    ∧ ((current.filter (fun q => q.sku == k)).length ≤ 1 →
        (((main_cycle deliver known current).restocked
            ++ (main_cycle deliver known current).increased
            ++ (main_cycle deliver known current).new_products).filter
            (fun q => q.sku == k)).length ≤ 1)
    ∧ Snapshot.find (main_cycle deliver known current).snapshot k
        = (lastWithKey current k).map (fun p => (processRecord known p).toKnown) := by
  have hmain : (((main_cycle deliver known current).restocked
      ++ (main_cycle deliver known current).increased
      ++ (main_cycle deliver known current).new_products).filter
      (fun q => q.sku == k)).length
      ≤ (current.filter (fun q => q.sku == k)).length := by
    by_cases hkn : known.isEmpty = true
    · rw [main_cycle_first_run deliver known current hc hkn]
      simp
    · have hkn2 : known.isEmpty = false := by simpa using hkn
      rw [main_cycle_restocked deliver known current hc hkn2,
        main_cycle_increased deliver known current hc hkn2,
        main_cycle_added deliver known current hc hkn2,
        List.filter_append, List.filter_append, List.length_append, List.length_append]
      exact count_events_le known k current
  exact ⟨hmain, fun h1 => le_trans hmain h1,
    main_cycle_snapshot_find deliver known current k hk hc⟩

/-- Witness for the amended C2 at a concrete single-occurrence key. -/
theorem C2_witness :
    ("A" : String) ≠ "" ∧
    ([mkP "A" 5] : List Product).isEmpty = false ∧
    (([mkP "A" 5] : List Product).filter (fun q => q.sku == "A")).length ≤ 1 ∧
    ((((main_cycle (fun _ => true) knownA0 [mkP "A" 5]).restocked
        ++ (main_cycle (fun _ => true) knownA0 [mkP "A" 5]).increased
        ++ (main_cycle (fun _ => true) knownA0 [mkP "A" 5]).new_products).filter
        (fun q => q.sku == "A")).length ≤ 1) ∧
    Snapshot.find (main_cycle (fun _ => true) knownA0 [mkP "A" 5]).snapshot "A"
      = (lastWithKey [mkP "A" 5] "A").map (fun p => (processRecord knownA0 p).toKnown) :=
  ⟨by decide, by decide, by decide,
    (C2_events_per_occurrence (fun _ => true) knownA0 [mkP "A" 5] "A"
      (by decide) (by decide)).2.1 (by decide),
    (C2_events_per_occurrence (fun _ => true) knownA0 [mkP "A" 5] "A"
      (by decide) (by decide)).2.2⟩

/-- Counterexample to claim C5 as stated: a first run over the single
fetched record with an empty SKU saves and finishes, but the persisted
snapshot is empty — the fetched record is dropped by
`save_known_products`, so not all N fetched records are persisted. -/
theorem C5_counterexample :
    (main_cycle (fun _ => true) [] [mkP "" 5]).saved = true ∧
    (main_cycle (fun _ => true) [] [mkP "" 5]).snapshot = [] := by
  decide

/-- Claim C5 (amended): on a non-empty fetch against an empty prior
snapshot the cycle emits zero events, builds zero messages, attempts
zero deliveries, and persists the fetched records that have a non-empty
key — keyed by SKU with the last occurrence winning, records with an
empty key being dropped; in particular, when all fetched records bear
distinct non-empty keys, every one of them is persisted verbatim. -/
theorem C5_first_run_seeds_baseline (deliver : Message → Bool) (current : List Product)
    (hc : current.isEmpty = false) :
    (main_cycle deliver [] current).restocked = []
    ∧ (main_cycle deliver [] current).increased = []
    ∧ (main_cycle deliver [] current).new_products = []
    ∧ (main_cycle deliver [] current).messages = []
    ∧ (main_cycle deliver [] current).deliveries = []
    ∧ (main_cycle deliver [] current).saved = true
    ∧ (main_cycle deliver [] current).snapshot = save_known_products current
    ∧ (∀ k, k ≠ "" → Snapshot.find (main_cycle deliver [] current).snapshot k
        = (lastWithKey current k).map Product.toKnown)
    ∧ ((current.map Product.sku).Nodup → (∀ p ∈ current, ¬ p.sku = "") →
        ∀ p ∈ current, Snapshot.find (main_cycle deliver [] current).snapshot p.sku
          = some p.toKnown) := by
  rw [main_cycle_first_run deliver [] current hc rfl]
  refine ⟨rfl, rfl, rfl, rfl, rfl, rfl, rfl, ?_, ?_⟩
  · intro k hk
    exact save_find current k hk
  · intro hnd hne p hp
    have h1 := save_find current p.sku (hne p hp)
    have h2 := lastWithKey_of_filter_singleton current p.sku p
      (filter_eq_singleton_of_nodup current hnd p hp)
    rw [h2] at h1
    exact h1

/-- Witness for the amended C5 at a concrete two-record first run. -/
theorem C5_witness :
    ([mkP "A" 2, mkP "B" 0] : List Product).isEmpty = false ∧
    (main_cycle (fun _ => true) [] [mkP "A" 2, mkP "B" 0]).restocked = [] ∧
    (main_cycle (fun _ => true) [] [mkP "A" 2, mkP "B" 0]).messages = [] ∧
    (main_cycle (fun _ => true) [] [mkP "A" 2, mkP "B" 0]).saved = true ∧
    (main_cycle (fun _ => true) [] [mkP "A" 2, mkP "B" 0]).snapshot
      = save_known_products [mkP "A" 2, mkP "B" 0] ∧
    Snapshot.find (main_cycle (fun _ => true) [] [mkP "A" 2, mkP "B" 0]).snapshot
        (mkP "B" 0).sku = some (mkP "B" 0).toKnown :=
  ⟨rfl,
    (C5_first_run_seeds_baseline (fun _ => true) [mkP "A" 2, mkP "B" 0] rfl).1,
    (C5_first_run_seeds_baseline (fun _ => true) [mkP "A" 2, mkP "B" 0] rfl).2.2.2.1,
    (C5_first_run_seeds_baseline (fun _ => true) [mkP "A" 2, mkP "B" 0] rfl).2.2.2.2.2.1,
    (C5_first_run_seeds_baseline (fun _ => true) [mkP "A" 2, mkP "B" 0] rfl).2.2.2.2.2.2.1,
    (C5_first_run_seeds_baseline (fun _ => true) [mkP "A" 2, mkP "B" 0] rfl).2.2.2.2.2.2.2.2
      (by decide) (by decide) (mkP "B" 0) (by decide)⟩

/-- Counterexample to claim C6 as stated: the fetch
`[A qty 5, A qty 0]` has a key-indexed mapping value-equal to the
snapshot `knownA0 = {A ↦ qty 0}` (last occurrence wins), yet the cycle
classifies the first occurrence against the stored qty 0 and emits a
`Restocked` event and a message — not zero events. -/
theorem C6_counterexample :
    Snapshot.equivb (save_known_products [mkP "A" 5, mkP "A" 0]) knownA0 = true ∧
    (main_cycle (fun _ => true) knownA0 [mkP "A" 5, mkP "A" 0]).restocked.length = 1 ∧
    (main_cycle (fun _ => true) knownA0 [mkP "A" 5, mkP "A" 0]).messages.length = 1 := by
  decide

/-- Claim C6 (amended): for a fetch in which each non-empty key occurs
at most once and whose key-indexed mapping is value-equal to the
snapshot `S`, a cycle produces zero events and zero messages and the
snapshot persisted at the end is value-equal to `S`. -/
theorem C6_idempotent_cycle (deliver : Message → Bool) (S : Snapshot) (current : List Product)
    (hnd : ((current.filter (fun q => q.sku != "")).map Product.sku).Nodup)
    (heq : Snapshot.equivb (save_known_products current) S = true) :
    (main_cycle deliver S current).restocked = []
    ∧ (main_cycle deliver S current).increased = []
    ∧ (main_cycle deliver S current).new_products = []
    ∧ (main_cycle deliver S current).messages = []
    ∧ Snapshot.equivb (main_cycle deliver S current).snapshot S = true := by
  by_cases hc : current.isEmpty = true
  · rw [main_cycle_abort deliver S current hc]
    exact ⟨rfl, rfl, rfl, rfl, equivb_refl S⟩
  · have hc2 : current.isEmpty = false := by simpa using hc
    by_cases hkn : S.isEmpty = true
    · rw [main_cycle_first_run deliver S current hc2 hkn]
      exact ⟨rfl, rfl, rfl, rfl, heq⟩
    · have hkn2 : S.isEmpty = false := by simpa using hkn
      have hnone : ∀ p ∈ current, classifyRecord S p = none := by
        intro p hp
        by_cases hsku : p.sku = ""
        · rw [classifyRecord, if_pos hsku]
        · have hpin : p ∈ current.filter (fun q => q.sku != "") :=
            List.mem_filter.mpr ⟨hp, by simp [hsku]⟩
          have hfil := filter_eq_singleton_of_nodup
            (current.filter (fun q => q.sku != "")) hnd p hpin
          rw [filter_sku_through_ne current p.sku hsku] at hfil
          have hlast := lastWithKey_of_filter_singleton current p.sku p hfil
          have hfind : Snapshot.find S p.sku = some p.toKnown := by
            have h1 := (equivb_iff (save_known_products current) S).mp heq p.sku
            rw [save_find current p.sku hsku, hlast] at h1
            exact h1.symm
          exact classifyRecord_none_of_self S p hfind
      have hr : current.filterMap (restockedOf S) = [] := by
        rw [List.filterMap_eq_nil_iff]
        intro p hp
        rw [restockedOf, hnone p hp]
      have hi : current.filterMap (increasedOf S) = [] := by
        rw [List.filterMap_eq_nil_iff]
        intro p hp
        rw [increasedOf, hnone p hp]
      have hn : current.filterMap (addedOf S) = [] := by
        rw [List.filterMap_eq_nil_iff]
        intro p hp
        rw [addedOf, hnone p hp]
      refine ⟨?_, ?_, ?_, ?_, ?_⟩
      · rw [main_cycle_restocked deliver S current hc2 hkn2]
        exact hr
      · rw [main_cycle_increased deliver S current hc2 hkn2]
        exact hi
      · rw [main_cycle_added deliver S current hc2 hkn2]
        exact hn
      · exact main_cycle_messages_nil deliver S current hc2 hkn2 hr hi hn
      · rw [main_cycle_snapshot_run deliver S current hc2 hkn2]
        have hmap : current.map (processRecord S) = current.map id :=
          List.map_congr_left (fun p hp => processRecord_of_none S p (hnone p hp))
        rw [hmap, List.map_id]
        exact heq

/-- Witness for the amended C6 at a concrete fixed point. -/
theorem C6_witness :
    ((([mkP "A" 0] : List Product).filter (fun q => q.sku != "")).map Product.sku).Nodup ∧
    Snapshot.equivb (save_known_products [mkP "A" 0]) knownA0 = true ∧
    ((main_cycle (fun _ => true) knownA0 [mkP "A" 0]).restocked = []
    ∧ (main_cycle (fun _ => true) knownA0 [mkP "A" 0]).increased = []
    ∧ (main_cycle (fun _ => true) knownA0 [mkP "A" 0]).new_products = []
    ∧ (main_cycle (fun _ => true) knownA0 [mkP "A" 0]).messages = []
    ∧ Snapshot.equivb (main_cycle (fun _ => true) knownA0 [mkP "A" 0]).snapshot knownA0
        = true) :=
  ⟨by decide, by decide,
    C6_idempotent_cycle (fun _ => true) knownA0 [mkP "A" 0] (by decide) (by decide)⟩

/-- Counterexample to claim C7 as stated: after a restock of SKU `A`
(prior qty 0, fetched qty 5), the record stored in the new snapshot is
not the fetched record — it additionally carries the event-derived
`old_stock = 0` field, which the fetched record did not have. -/
theorem C7_counterexample :
    Snapshot.find (main_cycle (fun _ => true) knownA0 [mkP "A" 5]).snapshot "A"
      ≠ some (mkP "A" 5).toKnown ∧
    (Snapshot.find (main_cycle (fun _ => true) knownA0 [mkP "A" 5]).snapshot "A").map
      (fun r => r.old_stock) = some (some 0) ∧
    (mkP "A" 5).old_stock = none := by
  decide

/-- Claim C7 (amended): the snapshot entry persisted for each non-empty
key is the last fetched record with that key as the loop left it: equal
to the fetched record in every field, except that a record which
produced a `Restocked` or `Increased` event carries an added
`old_stock` field holding the prior stored quantity. -/
theorem C7_persisted_records (deliver : Message → Bool) (known : Snapshot)
    (current : List Product) (k : String) (hk : k ≠ "") (hc : current.isEmpty = false) :
    Snapshot.find (main_cycle deliver known current).snapshot k
      = (lastWithKey current k).map (fun p => (processRecord known p).toKnown)
    ∧ (∀ p : Product, (processRecord known p).title = p.title
        ∧ (processRecord known p).sku = p.sku
        ∧ (processRecord known p).url = p.url
        ∧ (processRecord known p).stock_qty = p.stock_qty
        ∧ (processRecord known p).price = p.price
        ∧ (processRecord known p).image = p.image)
    ∧ (∀ p : Product, processRecord known p = p ∨
        ∃ old, Snapshot.find known p.sku = some old ∧
          processRecord known p = { p with old_stock := some (old.stock_qty.getD 0) }) := by
  refine ⟨main_cycle_snapshot_find deliver known current k hk hc, ?_,
    fun p => processRecord_cases known p⟩
  intro p
  rcases processRecord_cases known p with h | ⟨old, _, h⟩ <;> rw [h] <;>
    exact ⟨rfl, rfl, rfl, rfl, rfl, rfl⟩

/-- Witness for the amended C7 at the concrete restock input. -/
theorem C7_witness :
    ("A" : String) ≠ "" ∧
    ([mkP "A" 5] : List Product).isEmpty = false ∧
    Snapshot.find (main_cycle (fun _ => true) knownA0 [mkP "A" 5]).snapshot "A"
      = (lastWithKey [mkP "A" 5] "A").map (fun p => (processRecord knownA0 p).toKnown) ∧
    (processRecord knownA0 (mkP "A" 5)).sku = (mkP "A" 5).sku :=
  ⟨by decide, rfl,
    (C7_persisted_records (fun _ => true) knownA0 [mkP "A" 5] "A" (by decide) rfl).1,
    ((C7_persisted_records (fun _ => true) knownA0 [mkP "A" 5] "A"
      (by decide) rfl).2.1 (mkP "A" 5)).2.1⟩

end Firestorm
